import Mathlib

/-
Verification of the bidirectional-link maintenance logic of the note server
(src/server.js), shallowly embedded in Lean.  The JSON database object is
modelled as an association list of note records (plus the optional template
collection); each HTTP handler's store mutation is translated into a pure
function on that state.
-/

namespace Ta

/-- A note record, mirroring the JS object created by the POST handler:
`{ id, title, content, createdAt, updatedAt, links, backlinks }`. -/
structure Note where
  id : String
  title : String
  content : String
  createdAt : String
  updatedAt : String
  links : List String
  backlinks : List String
  deriving DecidableEq

/-- A template record: `{ id, title, content }`. -/
structure Template where
  id : String
  title : String
  content : String
  deriving DecidableEq

/-- The persisted database object.  `notes` models the JS object
`db.notes` as an association list in insertion order.  `templates` is an
`Option` because the fresh database written by `readDB` on ENOENT is the
literal `{ notes: {} }`, which has no `templates` property at all:
`none` models the absent property (JS `undefined`). -/
structure Db where
  notes : List (String × Note)
  templates : Option (List (String × Template))
  deriving DecidableEq

/-- Lookup `db.notes[i]`: property access on the notes object. -/
def dbGet (db : Db) (i : String) : Option Note :=
  (db.notes.find? (fun p => p.1 = i)).map (fun p => p.2)

/-- In-place mutation of the note stored at key `i` (a no-op when the key
is absent, matching the `if (db.notes[targetId])` guards in the JS). -/
def dbSet (db : Db) (i : String) (f : Note → Note) : Db :=
  { db with notes := db.notes.map (fun p => if p.1 = i then (p.1, f p.2) else p) }

/-- Assignment `db.notes[i] = n`: JS property assignment (overwrite in place if the
key exists, append otherwise). -/
def dbInsert (db : Db) (i : String) (n : Note) : Db :=
  if (dbGet db i).isSome then dbSet db i (fun _ => n)
  else { db with notes := db.notes ++ [(i, n)] }

/-- Deletion `delete db.notes[i]`. -/
def dbRemove (db : Db) (i : String) : Db :=
  { db with notes := db.notes.filter (fun p => ¬ p.1 = i) }

/-- Character class of the link regex `[a-fA-F0-9-]`. -/
def isLinkChar (c : Char) : Bool :=
  ('a' ≤ c ∧ c ≤ 'f') ∨ ('A' ≤ c ∧ c ≤ 'F') ∨ ('0' ≤ c ∧ c ≤ '9') ∨ c = '-'

/-- One pass of the global regex `/\[\[([a-fA-F0-9-]+)\]\]/g` over the
content, in source order.  At each position: if `[[` is followed by a
nonempty maximal run of class characters and then `]]`, the run is
captured and scanning resumes after the closing brackets; otherwise the
scan moves forward one character (the regex engine retries at the next
index).  The fuel argument is only a termination bound: every step
consumes at least one character. -/
def scanAux : Nat → List Char → List String
  | 0, _ => []
  | _ + 1, [] => []
  | fuel + 1, c :: cs =>
    if c = '[' ∧ cs.head? = some '[' then
      let rest := cs.tail
      let run := rest.takeWhile isLinkChar
      let rest2 := rest.dropWhile isLinkChar
      if ¬ run = [] ∧ rest2.head? = some ']' ∧ rest2.tail.head? = some ']' then
        String.mk run :: scanAux fuel rest2.tail.tail
      else
        scanAux fuel cs
    else
      scanAux fuel cs

/-- All captures of the link regex over the content, with multiplicity. -/
def scanLinks (content : List Char) : List String :=
  scanAux (content.length + 1) content

/-- Insertion `links.add(x)` on a JS `Set` represented as its insertion-ordered
element list. -/
def insertUniq (acc : List String) (s : String) : List String :=
  if s ∈ acc then acc else acc ++ [s]

/-- Conversion `Array.from(new Set(l))`: first-occurrence deduplication. -/
def dedupList (l : List String) : List String := l.foldl insertUniq []

/-- The function `parseLinks(content)`: the regex captures collected into a `Set` and
returned as an array. -/
def parseLinks (content : String) : List String :=
  dedupList (scanLinks content.data)

/-- Body of the backlink-removal loop of `updateLinks`:
`db.notes[targetId].backlinks = db.notes[targetId].backlinks.filter(id => id !== noteId)`. -/
def removeBacklinkFn (noteId : String) (n : Note) : Note :=
  { n with backlinks := n.backlinks.filter (fun x => ¬ x = noteId) }

/-- Body of the backlink-addition loop of `updateLinks`:
push `noteId` unless it is already present. -/
def addBacklinkFn (noteId : String) (n : Note) : Note :=
  if noteId ∈ n.backlinks then n else { n with backlinks := n.backlinks ++ [noteId] }

/-- The function `updateLinks(noteId, newContent, db)`.  Looks the note up (no-op when
absent), diffs the old link set against the links parsed from the new
content, removes this note from the backlinks of dropped targets, adds it
to the backlinks of existing, non-self new targets, and finally replaces
the note's `links` with the freshly parsed set. -/
def updateLinks (noteId : String) (newContent : String) (db : Db) : Db :=
  match dbGet db noteId with
  | none => db
  | some note =>
    let oldLinks := dedupList note.links
    let newLinks := parseLinks newContent
    let toRemove := oldLinks.filter (fun x => ¬ x ∈ newLinks)
    let db1 := toRemove.foldl (fun d targetId => dbSet d targetId (removeBacklinkFn noteId)) db
    let toAdd := newLinks.filter (fun x => ¬ x ∈ oldLinks)
    let db2 := toAdd.foldl
      (fun d targetId =>
        if ¬ targetId = noteId then dbSet d targetId (addBacklinkFn noteId) else d) db1
    dbSet db2 noteId (fun n => { n with links := newLinks })

/-- The fresh record built by the POST /api/notes handler: empty link
sets, both timestamps set to the clock value `now`. -/
def newNote (noteId title content now : String) : Note :=
  { id := noteId, title := title, content := content,
    createdAt := now, updatedAt := now, links := [], backlinks := [] }

/-- Core of the POST /api/notes handler after validation and template
resolution: insert the fresh record under the generated id, then run
`updateLinks` on its initial content. -/
def createNote (db : Db) (noteId title content now : String) : Db :=
  updateLinks noteId content (dbInsert db noteId (newNote noteId title content now))

/-- JS truthiness of an optional string body field: absent and `""` are
both falsy. -/
def truthy (o : Option String) : Bool :=
  match o with
  | none => false
  | some s => ¬ s = ""

/-- PUT /api/notes/:id.  `none` when the note is absent (404).  Otherwise
mirrors the handler: `note.title = title || note.title`, `newContent =
content || note.content`, `if (content) updateLinks(...)`, then
`note.content = newContent` and `note.updatedAt` refreshed. -/
def putNote (db : Db) (noteId : String) (titleBody contentBody : Option String)
    (now : String) : Option Db :=
  match dbGet db noteId with
  | none => none
  | some note =>
    let newContent := if truthy contentBody then contentBody.getD "" else note.content
    let db1 := dbSet db noteId
      (fun n => { n with title := if truthy titleBody then titleBody.getD "" else n.title })
    let db2 := if truthy contentBody then updateLinks noteId newContent db1 else db1
    some (dbSet db2 noteId (fun n => { n with content := newContent, updatedAt := now }))

/-- Body of the cleanup loop of the DELETE handler:
`db.notes[backlinkId].links = db.notes[backlinkId].links.filter(linkId => linkId !== id)`. -/
def delLinksFn (noteId : String) (n : Note) : Note :=
  { n with links := n.links.filter (fun x => ¬ x = noteId) }

/-- DELETE /api/notes/:id.  `none` when the note is absent (404).
Otherwise: for every id in the doomed note's `backlinks`, remove the
doomed id from that note's `links` (when it exists), then delete the
record.  Note that the handler performs no pass over the doomed note's
own `links`. -/
def deleteNote (db : Db) (noteId : String) : Option Db :=
  match dbGet db noteId with
  | none => none
  | some noteToDelete =>
    let db1 := noteToDelete.backlinks.foldl
      (fun d blId => dbSet d blId (delLinksFn noteId)) db
    some (dbRemove db1 noteId)

/-- The fresh record built by the daily-note branch of the GET
/api/notes/daily handler. -/
def dailyNote (today freshId now : String) : Note :=
  { id := freshId, title := "Daily Note: " ++ today, content := "# " ++ today ++ "\n\n",
    createdAt := now, updatedAt := now, links := [], backlinks := [] }

/-- GET /api/notes/daily.  Looks for the first note titled
`Daily Note: <today>`; returns it with status 200 and no write when
found, otherwise inserts a fresh daily note under the generated id,
writes the database, and returns it with status 201.  The final boolean
reports whether `writeDB` was invoked. -/
def getDailyNote (db : Db) (today freshId now : String) : Db × Nat × Note × Bool :=
  match db.notes.find? (fun p => p.2.title = "Daily Note: " ++ today) with
  | some p => (db, 200, p.2, false)
  | none =>
    (dbInsert db freshId (dailyNote today freshId now), 201,
      dailyNote today freshId now, true)

/-- The database `readDB` writes and returns when no persisted file
exists (ENOENT branch): the literal `{ notes: {} }`, with no `templates`
property. -/
def initialDb : Db := { notes := [], templates := none }

/-- Lookup `templates[i]` on the template collection. -/
def tGet (ts : List (String × Template)) (i : String) : Option Template :=
  (ts.find? (fun p => p.1 = i)).map (fun p => p.2)

/-- Assignment `db.templates[id] = t`. -/
def tInsert (ts : List (String × Template)) (i : String) (t : Template) :
    List (String × Template) :=
  if (tGet ts i).isSome then ts.map (fun p => if p.1 = i then (p.1, t) else p)
  else ts ++ [(i, t)]

/-- POST /api/templates.  Validation first (`!title || !content` gives a
400), then `db.templates[id] = newTemplate`.  When `db.templates` is
absent (the fresh database), that assignment throws a TypeError which the
top-level handler converts into a 500 Internal Server Error; the `none`
branch models that fault. -/
def createTemplate (db : Db) (tid title content : String) :
    Except String (Db × Template) :=
  if title = "" ∨ content = "" then
    Except.error "Template title and content are required."
  else
    match db.templates with
    | none => Except.error "Internal Server Error"
    | some ts =>
      let t : Template := { id := tid, title := title, content := content }
      Except.ok ({ db with templates := some (tInsert ts tid t) }, t)

/-! ### Derived quantities and invariant predicates -/

/-- The removal diff `oldLinks \ newLinks` computed by `updateLinks` for a
note with record `note` and new content `c`. -/
def remList (note : Note) (c : String) : List String :=
  (dedupList note.links).filter (fun x => ¬ x ∈ parseLinks c)

/-- The addition diff `newLinks \ oldLinks` computed by `updateLinks`. -/
def addList (note : Note) (c : String) : List String :=
  (parseLinks c).filter (fun x => ¬ x ∈ dedupList note.links)

/-- What `updateLinks i c` does to the note stored at key `j`, note by
note: dropped targets lose the backlink, added non-self targets gain it,
and the edited note's `links` are replaced. -/
def transformFn (i c : String) (note : Note) (j : String) (n : Note) : Note :=
  let n1 := if j ∈ remList note c then removeBacklinkFn i n else n
  let n2 := if j ∈ addList note c ∧ ¬ j = i then addBacklinkFn i n1 else n1
  if j = i then { n2 with links := parseLinks c } else n2

/-- Graph symmetry over the notes that exist in the store, restricted to
distinct pairs: `B.id ∈ A.links ↔ A.id ∈ B.backlinks`. -/
def Symm (db : Db) : Prop :=
  ∀ a b na nb, ¬ a = b → dbGet db a = some na → dbGet db b = some nb →
    (b ∈ na.links ↔ a ∈ nb.backlinks)

/-! ### Concrete stores used for witnesses and counterexamples -/

/-- Note `aa`: empty content, referenced by `bb`. -/
def noteA : Note :=
  { id := "aa", title := "A", content := "", createdAt := "t0", updatedAt := "t0",
    links := [], backlinks := ["bb"] }

/-- Note `bb`: content `[[aa]]`, so it references `aa`. -/
def noteB : Note :=
  { id := "bb", title := "B", content := "[[aa]]", createdAt := "t0", updatedAt := "t0",
    links := ["aa"], backlinks := [] }

/-- A two-note store in which `bb` references `aa`. -/
def dbAB : Db := { notes := [("aa", noteA), ("bb", noteB)], templates := some [] }

/-- The store after deleting `aa` from `dbAB`. -/
def dbABdelA : Db := (deleteNote dbAB "aa").getD dbAB

/-- The store after deleting `bb` from `dbAB`. -/
def dbABdelB : Db := (deleteNote dbAB "bb").getD dbAB

/-- The store after `PUT /api/notes/bb` with body `{ content: "" }` on
`dbAB`. -/
def dbABputEmpty : Db := (putNote dbAB "bb" none (some "") "t9").getD dbAB

/-- A one-note store built by the POST handler: note `aa` with content
`"x"` (no references). -/
def dbSelf0 : Db := createNote initialDb "aa" "A" "x" "t0"

/-- The store `dbSelf0` after `PUT /api/notes/aa` with body content `[[aa]]`:
note `aa` now references itself. -/
def dbSelf1 : Db := (putNote dbSelf0 "aa" none (some "[[aa]]") "t1").getD dbSelf0

/-! ### Store-access lemmas -/

theorem dbGet_dbSet (db : Db) (i j : String) (f : Note → Note) :
    dbGet (dbSet db i f) j = if j = i then (dbGet db i).map f else dbGet db j := by
  obtain ⟨l, ts⟩ := db
  simp only [dbGet, dbSet]
  induction l with
  | nil => cases Decidable.em (j = i) <;> simp [List.find?, *]
  | cons p l ih =>
    by_cases hpi : p.1 = i <;> by_cases hpj : p.1 = j <;>
      simp_all [List.find?_cons, ih]
    all_goals first | rfl | (split <;> simp_all)

theorem dbGet_dbInsert_self (db : Db) (i : String) (n : Note) :
    dbGet (dbInsert db i n) i = some n := by
  unfold dbInsert
  by_cases h : (dbGet db i).isSome
  · rw [if_pos h, dbGet_dbSet, if_pos rfl]
    obtain ⟨x, hx⟩ := Option.isSome_iff_exists.mp h
    simp [hx]
  · rw [if_neg h]
    obtain ⟨l, ts⟩ := db
    simp only [dbGet] at h ⊢
    induction l with
    | nil => simp [List.find?]
    | cons p l ih =>
      by_cases hpi : p.1 = i <;> simp_all [List.find?_cons]

theorem dbGet_dbInsert_of_none (db : Db) (i j : String) (n : Note)
    (h : dbGet db i = none) :
    dbGet (dbInsert db i n) j = if j = i then some n else dbGet db j := by
  by_cases hji : j = i
  · subst hji; simp [dbGet_dbInsert_self, h]
  · have hij : ¬ i = j := fun he => hji he.symm
    unfold dbInsert
    rw [if_neg (by simp [h])]
    obtain ⟨l, ts⟩ := db
    simp only [dbGet] at h ⊢
    rw [if_neg hji]
    induction l with
    | nil => simp [List.find?, hij]
    | cons p l ih =>
      by_cases hpj : p.1 = j <;> by_cases hpi : p.1 = i <;>
        simp_all [List.find?_cons, hij]

theorem dbGet_dbRemove (db : Db) (i j : String) :
    dbGet (dbRemove db i) j = if j = i then none else dbGet db j := by
  obtain ⟨l, ts⟩ := db
  simp only [dbGet, dbRemove]
  induction l with
  | nil => cases Decidable.em (j = i) <;> simp [List.find?, *]
  | cons p l ih =>
    by_cases hpi : p.1 = i <;> by_cases hpj : p.1 = j <;>
      simp_all [List.find?_cons, List.filter_cons]

theorem templates_dbSet (db : Db) (i : String) (f : Note → Note) :
    (dbSet db i f).templates = db.templates := rfl

/-! ### Folded per-target mutations -/

theorem foldl_dbSet_get (f : Note → Note) (hf : ∀ n, f (f n) = f n)
    (ks : List String) (db : Db) (j : String) :
    dbGet (ks.foldl (fun d t => dbSet d t f) db) j =
      if j ∈ ks then (dbGet db j).map f else dbGet db j := by
  induction ks generalizing db with
  | nil => simp
  | cons t ks ih =>
    rw [List.foldl_cons, ih, dbGet_dbSet]
    by_cases hjt : j = t
    · subst hjt
      by_cases hmem : j ∈ ks <;> cases hdb : dbGet db j <;>
        simp [hmem, hdb, hf]
    · by_cases hmem : j ∈ ks <;> simp [hmem, hjt]

theorem foldl_dbSet_guard_get (P : String → Prop) [DecidablePred P]
    (f : Note → Note) (hf : ∀ n, f (f n) = f n)
    (ks : List String) (db : Db) (j : String) :
    dbGet (ks.foldl (fun d t => if P t then dbSet d t f else d) db) j =
      if j ∈ ks ∧ P j then (dbGet db j).map f else dbGet db j := by
  induction ks generalizing db with
  | nil => simp
  | cons t ks ih =>
    rw [List.foldl_cons, ih]
    by_cases hPt : P t
    · rw [if_pos hPt, dbGet_dbSet]
      by_cases hjt : j = t
      · subst hjt
        by_cases hmem : j ∈ ks <;> cases hdb : dbGet db j <;>
          simp [hmem, hdb, hf, hPt]
      · by_cases hmem : j ∈ ks <;> by_cases hPj : P j <;>
          simp [hmem, hjt, hPj]
    · rw [if_neg hPt]
      by_cases hjt : j = t
      · subst hjt; simp [hPt]
      · by_cases hmem : j ∈ ks <;> by_cases hPj : P j <;>
          simp [hmem, hjt, hPj]

/-! ### Set/dedup lemmas -/

theorem mem_insertUniq (acc : List String) (s x : String) :
    x ∈ insertUniq acc s ↔ x ∈ acc ∨ x = s := by
  unfold insertUniq
  by_cases h : s ∈ acc
  · simp only [if_pos h]
    constructor
    · exact Or.inl
    · rintro (hx | rfl)
      · exact hx
      · exact h
  · simp [if_neg h]

theorem mem_foldl_insertUniq (l acc : List String) (x : String) :
    x ∈ l.foldl insertUniq acc ↔ x ∈ acc ∨ x ∈ l := by
  induction l generalizing acc with
  | nil => simp
  | cons a l ih =>
    rw [List.foldl_cons, ih, mem_insertUniq]
    simp [or_assoc]

theorem mem_dedupList (l : List String) (x : String) :
    x ∈ dedupList l ↔ x ∈ l := by
  unfold dedupList
  rw [mem_foldl_insertUniq]
  simp

theorem nodup_foldl_insertUniq (l acc : List String) (h : acc.Nodup) :
    (l.foldl insertUniq acc).Nodup := by
  induction l generalizing acc with
  | nil => exact h
  | cons a l ih =>
    rw [List.foldl_cons]
    refine ih _ ?_
    unfold insertUniq
    by_cases ha : a ∈ acc
    · simpa [ha] using h
    · simp [ha, List.nodup_append, h]

theorem nodup_dedupList (l : List String) : (dedupList l).Nodup :=
  nodup_foldl_insertUniq l [] List.nodup_nil

theorem foldl_insertUniq_of_nodup (l acc : List String)
    (h : (acc ++ l).Nodup) : l.foldl insertUniq acc = acc ++ l := by
  induction l generalizing acc with
  | nil => simp
  | cons a l ih =>
    rw [List.foldl_cons]
    have ha : ¬ a ∈ acc := by
      intro hmem
      have := List.disjoint_of_nodup_append h
      exact this hmem (List.mem_cons_self a l)
    rw [insertUniq, if_neg ha]
    have h2 : ((acc ++ [a]) ++ l).Nodup := by
      simpa [List.append_assoc] using h
    rw [ih (acc ++ [a]) h2, List.append_assoc]
    rfl

theorem dedupList_of_nodup (l : List String) (h : l.Nodup) :
    dedupList l = l := by
  unfold dedupList
  simpa using foldl_insertUniq_of_nodup l [] (by simpa using h)

theorem nodup_parseLinks (c : String) : (parseLinks c).Nodup :=
  nodup_dedupList _

theorem dedupList_parseLinks (c : String) :
    dedupList (parseLinks c) = parseLinks c :=
  dedupList_of_nodup _ (nodup_parseLinks c)

/-! ### Note-transformer lemmas -/

theorem links_removeBacklinkFn (i : String) (n : Note) :
    (removeBacklinkFn i n).links = n.links := rfl

theorem links_addBacklinkFn (i : String) (n : Note) :
    (addBacklinkFn i n).links = n.links := by
  unfold addBacklinkFn
  split <;> rfl

theorem mem_backlinks_removeBacklinkFn (i x : String) (n : Note) :
    x ∈ (removeBacklinkFn i n).backlinks ↔ x ∈ n.backlinks ∧ ¬ x = i := by
  simp [removeBacklinkFn, List.mem_filter]

theorem mem_backlinks_addBacklinkFn (i x : String) (n : Note) :
    x ∈ (addBacklinkFn i n).backlinks ↔ x ∈ n.backlinks ∨ x = i := by
  unfold addBacklinkFn
  by_cases h : i ∈ n.backlinks
  · rw [if_pos h]
    constructor
    · exact Or.inl
    · rintro (hx | rfl)
      · exact hx
      · exact h
  · rw [if_neg h]
    simp

theorem removeBacklinkFn_idem (i : String) (n : Note) :
    removeBacklinkFn i (removeBacklinkFn i n) = removeBacklinkFn i n := by
  unfold removeBacklinkFn
  simp only
  congr 1
  rw [List.filter_eq_self]
  intro a ha
  exact (List.mem_filter.mp ha).2

theorem addBacklinkFn_idem (i : String) (n : Note) :
    addBacklinkFn i (addBacklinkFn i n) = addBacklinkFn i n := by
  unfold addBacklinkFn
  by_cases h : i ∈ n.backlinks
  · simp [h]
  · simp [h]

/-! ### Characterization of updateLinks -/

theorem updateLinks_none (db : Db) (i c : String) (h : dbGet db i = none) :
    updateLinks i c db = db := by
  unfold updateLinks
  rw [h]

theorem updateLinks_some (db : Db) (i c : String) (note : Note)
    (h : dbGet db i = some note) :
    updateLinks i c db =
      dbSet
        ((addList note c).foldl
          (fun d targetId =>
            if ¬ targetId = i then dbSet d targetId (addBacklinkFn i) else d)
          ((remList note c).foldl
            (fun d targetId => dbSet d targetId (removeBacklinkFn i)) db))
        i (fun n => { n with links := parseLinks c }) := by
  unfold updateLinks
  rw [h]
  rfl

theorem updateLinks_get (db : Db) (i c j : String) (note : Note)
    (h : dbGet db i = some note) :
    dbGet (updateLinks i c db) j = (dbGet db j).map (transformFn i c note j) := by
  rw [updateLinks_some db i c note h, dbGet_dbSet]
  by_cases hji : j = i
  · subst hji
    rw [if_pos rfl]
    rw [foldl_dbSet_guard_get _ _ (addBacklinkFn_idem j)]
    rw [foldl_dbSet_get _ (removeBacklinkFn_idem j)]
    rw [if_neg (by simp)]
    by_cases hrem : j ∈ remList note c <;> simp [transformFn, h, hrem]
  · rw [if_neg hji]
    rw [foldl_dbSet_guard_get _ _ (addBacklinkFn_idem i)]
    rw [foldl_dbSet_get _ (removeBacklinkFn_idem i)]
    by_cases hadd : j ∈ addList note c <;> by_cases hrem : j ∈ remList note c <;>
      cases hdb : dbGet db j <;> simp [transformFn, hji, hadd, hrem, hdb]

theorem mem_remList (note : Note) (c x : String) :
    x ∈ remList note c ↔ x ∈ note.links ∧ ¬ x ∈ parseLinks c := by
  simp [remList, List.mem_filter, mem_dedupList]

theorem mem_addList (note : Note) (c x : String) :
    x ∈ addList note c ↔ x ∈ parseLinks c ∧ ¬ x ∈ note.links := by
  simp [addList, List.mem_filter, mem_dedupList]

theorem transformFn_links_self (i c : String) (note n : Note) :
    (transformFn i c note i n).links = parseLinks c := by
  simp [transformFn]

theorem transformFn_links_other (i c : String) (note : Note) (j : String)
    (n : Note) (hji : ¬ j = i) :
    (transformFn i c note j n).links = n.links := by
  unfold transformFn
  rw [if_neg hji]
  by_cases h2 : j ∈ addList note c ∧ ¬ j = i <;> by_cases h1 : j ∈ remList note c <;>
    simp [h1, h2, links_addBacklinkFn, links_removeBacklinkFn]

theorem mem_backlinks_transformFn (i c : String) (note : Note) (j x : String)
    (n : Note) :
    x ∈ (transformFn i c note j n).backlinks ↔
      (x ∈ n.backlinks ∧ ¬ (j ∈ remList note c ∧ x = i)) ∨
      (j ∈ addList note c ∧ ¬ j = i ∧ x = i) := by
  have hbase : ∀ m : Note,
      x ∈ (if j = i then { m with links := parseLinks c } else m).backlinks ↔
        x ∈ m.backlinks := by
    intro m
    by_cases hji : j = i <;> simp [hji]
  simp only [transformFn]
  rw [hbase]
  by_cases hadd2 : j ∈ addList note c ∧ ¬ j = i
  · rw [if_pos hadd2, mem_backlinks_addBacklinkFn]
    by_cases hrem : j ∈ remList note c
    · rw [if_pos hrem, mem_backlinks_removeBacklinkFn]
      constructor
      · rintro (⟨hx, hxi⟩ | rfl)
        · exact Or.inl ⟨hx, fun hc => hxi hc.2⟩
        · exact Or.inr ⟨hadd2.1, hadd2.2, rfl⟩
      · rintro (⟨hx, hni⟩ | ⟨_, _, rfl⟩)
        · by_cases hxi : x = i
          · exact Or.inr hxi
          · exact Or.inl ⟨hx, hxi⟩
        · exact Or.inr rfl
    · rw [if_neg hrem]
      constructor
      · rintro (hx | rfl)
        · exact Or.inl ⟨hx, fun hc => hrem hc.1⟩
        · exact Or.inr ⟨hadd2.1, hadd2.2, rfl⟩
      · rintro (⟨hx, _⟩ | ⟨_, _, rfl⟩)
        · exact Or.inl hx
        · exact Or.inr rfl
  · rw [if_neg hadd2]
    by_cases hrem : j ∈ remList note c
    · rw [if_pos hrem, mem_backlinks_removeBacklinkFn]
      constructor
      · rintro ⟨hx, hxi⟩
        exact Or.inl ⟨hx, fun hc => hxi hc.2⟩
      · rintro (⟨hx, hni⟩ | hbad)
        · exact ⟨hx, fun heq => hni ⟨hrem, heq⟩⟩
        · exact absurd ⟨hbad.1, hbad.2.1⟩ hadd2
    · rw [if_neg hrem]
      constructor
      · intro hx
        exact Or.inl ⟨hx, fun hc => hrem hc.1⟩
      · rintro (⟨hx, _⟩ | hbad)
        · exact hx
        · exact absurd ⟨hbad.1, hbad.2.1⟩ hadd2

/-! ### Characterization of deleteNote and createNote -/

theorem delLinksFn_idem (i : String) (n : Note) :
    delLinksFn i (delLinksFn i n) = delLinksFn i n := by
  unfold delLinksFn
  simp only
  congr 1
  rw [List.filter_eq_self]
  intro a ha
  exact (List.mem_filter.mp ha).2

theorem deleteNote_none (db : Db) (i : String) (h : dbGet db i = none) :
    deleteNote db i = none := by
  unfold deleteNote
  rw [h]

theorem deleteNote_some (db : Db) (i : String) (note : Note)
    (h : dbGet db i = some note) :
    deleteNote db i =
      some (dbRemove
        (note.backlinks.foldl (fun d blId => dbSet d blId (delLinksFn i)) db) i) := by
  unfold deleteNote
  rw [h]

theorem deleteNote_get (db : Db) (i : String) (note : Note) (db' : Db)
    (h : dbGet db i = some note) (hdel : deleteNote db i = some db') (j : String) :
    dbGet db' j =
      if j = i then none
      else if j ∈ note.backlinks then (dbGet db j).map (delLinksFn i)
      else dbGet db j := by
  rw [deleteNote_some db i note h] at hdel
  have hdb' := Option.some.inj hdel
  subst hdb'
  rw [dbGet_dbRemove]
  by_cases hji : j = i
  · rw [if_pos hji, if_pos hji]
  · rw [if_neg hji, if_neg hji]
    rw [foldl_dbSet_get _ (delLinksFn_idem i)]

theorem createNote_get (db : Db) (i title c now j : String)
    (h : dbGet db i = none) :
    dbGet (createNote db i title c now) j =
      if j = i then some (transformFn i c (newNote i title c now) i (newNote i title c now))
      else (dbGet db j).map (transformFn i c (newNote i title c now) j) := by
  unfold createNote
  have h1 : dbGet (dbInsert db i (newNote i title c now)) i = some (newNote i title c now) :=
    dbGet_dbInsert_self db i _
  rw [updateLinks_get _ i c j _ h1]
  rw [dbGet_dbInsert_of_none db i j _ h]
  by_cases hji : j = i
  · rw [if_pos hji, if_pos hji, hji, Option.map_some']
  · rw [if_neg hji, if_neg hji]

theorem remList_newNote (i title c now c' : String) :
    remList (newNote i title c now) c' = [] := rfl

theorem addList_newNote (i title c now c' : String) :
    addList (newNote i title c now) c' = parseLinks c' := by
  unfold addList
  rw [List.filter_eq_self]
  intro a _
  simp [newNote, dedupList]

theorem transformFn_newNote_self (i title c now : String) :
    transformFn i c (newNote i title c now) i (newNote i title c now) =
      { newNote i title c now with links := parseLinks c } := by
  unfold transformFn
  rw [remList_newNote]
  simp

theorem createNote_get' (db : Db) (i title c now j : String)
    (h : dbGet db i = none) :
    dbGet (createNote db i title c now) j =
      if j = i then some { newNote i title c now with links := parseLinks c }
      else (dbGet db j).map (transformFn i c (newNote i title c now) j) := by
  rw [createNote_get db i title c now j h, transformFn_newNote_self]

theorem mem_links_delLinksFn (i x : String) (n : Note) :
    x ∈ (delLinksFn i n).links ↔ x ∈ n.links ∧ ¬ x = i := by
  simp [delLinksFn, List.mem_filter]

theorem backlinks_delLinksFn (i : String) (n : Note) :
    (delLinksFn i n).backlinks = n.backlinks := rfl

/-! ### Preservation of graph symmetry -/

theorem symm_updateLinks (db : Db) (hs : Symm db) (i c : String) :
    Symm (updateLinks i c db) := by
  cases hnote : dbGet db i with
  | none =>
    rw [updateLinks_none db i c hnote]
    exact hs
  | some note =>
    intro a b na' nb' hab ha' hb'
    rw [updateLinks_get db i c a note hnote] at ha'
    rw [updateLinks_get db i c b note hnote] at hb'
    obtain ⟨na, hna, hna'⟩ := Option.map_eq_some'.mp ha'
    obtain ⟨nb, hnb, hnb'⟩ := Option.map_eq_some'.mp hb'
    subst hna'
    subst hnb'
    have hSab := hs a b na nb hab hna hnb
    rw [mem_backlinks_transformFn]
    by_cases hai : a = i
    · subst hai
      have hna2 : na = note := by
        rw [hna] at hnote
        exact Option.some.inj hnote
      subst hna2
      have hba : ¬ b = a := fun h => hab h.symm
      rw [transformFn_links_self]
      constructor
      · intro hbnew
        by_cases hbl : b ∈ na.links
        · exact Or.inl ⟨hSab.mp hbl,
            fun hc => ((mem_remList na c b).mp hc.1).2 hbnew⟩
        · exact Or.inr ⟨(mem_addList na c b).mpr ⟨hbnew, hbl⟩, hba, rfl⟩
      · rintro (⟨hbk, hnrem⟩ | ⟨hbadd, _, _⟩)
        · by_contra hbnew
          exact hnrem ⟨(mem_remList na c b).mpr ⟨hSab.mpr hbk, hbnew⟩, rfl⟩
        · exact ((mem_addList na c b).mp hbadd).1
    · rw [transformFn_links_other i c note a na hai]
      constructor
      · intro hbl
        exact Or.inl ⟨hSab.mp hbl, fun hc => hai hc.2⟩
      · rintro (⟨hbk, _⟩ | ⟨_, _, hai2⟩)
        · exact hSab.mpr hbk
        · exact absurd hai2 hai

theorem symm_deleteNote (db : Db) (hs : Symm db) (i : String) (db' : Db)
    (hdel : deleteNote db i = some db') : Symm db' := by
  cases hnote : dbGet db i with
  | none =>
    rw [deleteNote_none db i hnote] at hdel
    exact Option.noConfusion hdel
  | some note =>
    intro a b na' nb' hab ha' hb'
    rw [deleteNote_get db i note db' hnote hdel a] at ha'
    rw [deleteNote_get db i note db' hnote hdel b] at hb'
    by_cases hai : a = i
    · rw [if_pos hai] at ha'
      exact Option.noConfusion ha'
    rw [if_neg hai] at ha'
    by_cases hbi : b = i
    · rw [if_pos hbi] at hb'
      exact Option.noConfusion hb'
    rw [if_neg hbi] at hb'
    have hA : ∃ na, dbGet db a = some na ∧
        (b ∈ na'.links ↔ b ∈ na.links) ∧ na'.backlinks = na.backlinks := by
      by_cases hamem : a ∈ note.backlinks
      · rw [if_pos hamem] at ha'
        obtain ⟨na, hna, hna'⟩ := Option.map_eq_some'.mp ha'
        refine ⟨na, hna, ?_, ?_⟩
        · rw [← hna', mem_links_delLinksFn]
          exact and_iff_left hbi
        · rw [← hna']
          rfl
      · rw [if_neg hamem] at ha'
        exact ⟨na', ha', Iff.rfl, rfl⟩
    have hB : ∃ nb, dbGet db b = some nb ∧ nb'.backlinks = nb.backlinks := by
      by_cases hbmem : b ∈ note.backlinks
      · rw [if_pos hbmem] at hb'
        obtain ⟨nb, hnb, hnb'⟩ := Option.map_eq_some'.mp hb'
        refine ⟨nb, hnb, ?_⟩
        rw [← hnb']
        rfl
      · rw [if_neg hbmem] at hb'
        exact ⟨nb', hb', rfl⟩
    obtain ⟨na, hna, hlinks, _⟩ := hA
    obtain ⟨nb, hnb, hbacks⟩ := hB
    rw [hbacks]
    exact hlinks.trans (hs a b na nb hab hna hnb)

theorem symm_createNote (db : Db) (hs : Symm db) (i title c now : String)
    (hfresh : dbGet db i = none)
    (hnoghost : ∀ a na, dbGet db a = some na → ¬ i ∈ na.links ∧ ¬ i ∈ na.backlinks) :
    Symm (createNote db i title c now) := by
  intro a b na' nb' hab ha' hb'
  rw [createNote_get' db i title c now a hfresh] at ha'
  rw [createNote_get' db i title c now b hfresh] at hb'
  by_cases hai : a = i
  · rw [if_pos hai] at ha'
    have hna' : na' = { newNote i title c now with links := parseLinks c } :=
      (Option.some.inj ha').symm
    subst hna'
    have hbi : ¬ b = i := fun h => hab (by rw [hai, h])
    rw [if_neg hbi] at hb'
    obtain ⟨nb, hnb, hnb'⟩ := Option.map_eq_some'.mp hb'
    subst hnb'
    have hgh := hnoghost b nb hnb
    rw [mem_backlinks_transformFn, remList_newNote, addList_newNote]
    show b ∈ parseLinks c ↔ _
    constructor
    · intro hbnew
      exact Or.inr ⟨hbnew, hbi, hai⟩
    · rintro (⟨habk, _⟩ | ⟨hbnew, _, _⟩)
      · rw [hai] at habk
        exact absurd habk hgh.2
      · exact hbnew
  · rw [if_neg hai] at ha'
    obtain ⟨na, hna, hna'⟩ := Option.map_eq_some'.mp ha'
    subst hna'
    rw [transformFn_links_other i c (newNote i title c now) a na hai]
    by_cases hbi : b = i
    · rw [if_pos hbi] at hb'
      have hnb' : nb' = { newNote i title c now with links := parseLinks c } :=
        (Option.some.inj hb').symm
      subst hnb'
      have hgh := hnoghost a na hna
      constructor
      · intro hbl
        rw [hbi] at hbl
        exact absurd hbl hgh.1
      · intro habk
        exact absurd habk (List.not_mem_nil a)
    · rw [if_neg hbi] at hb'
      obtain ⟨nb, hnb, hnb'⟩ := Option.map_eq_some'.mp hb'
      subst hnb'
      have hSab := hs a b na nb hab hna hnb
      rw [mem_backlinks_transformFn, remList_newNote]
      constructor
      · intro hbl
        exact Or.inl ⟨hSab.mp hbl, fun hc => absurd hc.1 (List.not_mem_nil b)⟩
      · rintro (⟨habk, _⟩ | ⟨_, _, hai2⟩)
        · exact hSab.mpr habk
        · exact absurd hai2 hai

theorem dbSet_dbSet (db : Db) (i : String) (f g : Note → Note) :
    dbSet (dbSet db i f) i g = dbSet db i (fun n => g (f n)) := by
  obtain ⟨l, ts⟩ := db
  simp only [dbSet]
  congr 1
  induction l with
  | nil => rfl
  | cons p l ih =>
    by_cases hpi : p.1 = i <;> simp [hpi, ih]

/-! ### Claims -/

/-- Claim C1, counterexample.  In the reachable store `dbSelf1` (create
note `aa` with content `"x"`, then PUT content `"[[aa]]"`), the note `aa`
exists, has its own id in `links`, but not in `backlinks`: the
biconditional symmetry invariant `B.id ∈ A.references ⇔ A.id ∈
B.backreferences` fails for the pair A = B = `aa` after a completed core
mutation. -/
theorem C1_symmetry_cex :
    (dbGet dbSelf1 "aa").map Note.links = some ["aa"] ∧
    (dbGet dbSelf1 "aa").map Note.backlinks = some [] := by
  decide

/-- Claim C1 (amended): for distinct existing notes A, B, the symmetry
`B.id ∈ A.links ↔ A.id ∈ B.backlinks` is an invariant: it is preserved by
every content update and every completed deletion, and by every creation
whose generated id is globally fresh (not a stored key and not occurring
in any stored `links` or `backlinks` list).  The self-pair case and
creations that resolve a previously dangling reference are excluded, as
the counterexample shows they break the biconditional. -/
theorem C1_symmetry (db : Db) (hs : Symm db) :
    (∀ i c, Symm (updateLinks i c db)) ∧
    (∀ i db', deleteNote db i = some db' → Symm db') ∧
    (∀ i title c now, dbGet db i = none →
      (∀ a na, dbGet db a = some na → ¬ i ∈ na.links ∧ ¬ i ∈ na.backlinks) →
      Symm (createNote db i title c now)) :=
  ⟨fun i c => symm_updateLinks db hs i c,
   fun i db' hdel => symm_deleteNote db hs i db' hdel,
   fun i title c now hfresh hgh => symm_createNote db hs i title c now hfresh hgh⟩

/-- Witness for C1: the empty store is symmetric and creating a fresh
note in it yields a symmetric store. -/
theorem C1_symmetry_witness : Symm (createNote initialDb "aa" "A" "x" "t0") :=
  (C1_symmetry initialDb
    (fun _ _ _ _ _ ha _ => Option.noConfusion ha)).2.2
    "aa" "A" "x" "t0" rfl (fun _ _ ha => Option.noConfusion ha)

/-- Claim C2, counterexample.  In `dbAB` the note `bb` references `aa`
(so `aa.backlinks = ["bb"]`).  Deleting `bb` removes its record but does
NOT remove the `backreferences` entry `"bb"` held by its target `aa`: the
claimed second sweep direction is absent from the DELETE handler. -/
theorem C2_delete_cex :
    dbGet dbABdelB "bb" = none ∧
    (dbGet dbABdelB "aa").map Note.backlinks = some ["bb"] := by
  decide

/-- Claim C2 (amended): `deleteNote` removes the deleted id from the
`links` of every existing note listed in the deleted note's `backlinks`
and removes the record itself, but performs no reverse sweep: the
`backlinks` list of every surviving note is left exactly as it was, so
targets of the deleted note retain a stale backreference entry. -/
theorem C2_delete (db : Db) (i : String) (note : Note) (db' : Db)
    (h : dbGet db i = some note) (hdel : deleteNote db i = some db') :
    dbGet db' i = none ∧
    (∀ j nj', ¬ j = i → j ∈ note.backlinks → dbGet db' j = some nj' →
      ¬ i ∈ nj'.links) ∧
    (∀ j nj nj', ¬ j = i → dbGet db j = some nj → dbGet db' j = some nj' →
      nj'.backlinks = nj.backlinks) := by
  refine ⟨?_, ?_, ?_⟩
  · rw [deleteNote_get db i note db' h hdel i, if_pos rfl]
  · intro j nj' hji hjmem hj
    rw [deleteNote_get db i note db' h hdel j, if_neg hji, if_pos hjmem] at hj
    obtain ⟨nj, _, hnj'⟩ := Option.map_eq_some'.mp hj
    subst hnj'
    rw [mem_links_delLinksFn]
    rintro ⟨_, hc⟩
    exact hc rfl
  · intro j nj nj' hji hnj hnj'
    rw [deleteNote_get db i note db' h hdel j, if_neg hji] at hnj'
    by_cases hjmem : j ∈ note.backlinks
    · rw [if_pos hjmem, hnj, Option.map_some'] at hnj'
      rw [← Option.some.inj hnj']
      rfl
    · rw [if_neg hjmem, hnj] at hnj'
      rw [← Option.some.inj hnj']

/-- Witness for C2: deleting `aa` from `dbAB`. -/
theorem C2_delete_witness :
    dbGet dbABdelA "aa" = none ∧
    (∀ j nj', ¬ j = "aa" → j ∈ noteA.backlinks → dbGet dbABdelA j = some nj' →
      ¬ "aa" ∈ nj'.links) ∧
    (∀ j nj nj', ¬ j = "aa" → dbGet dbAB j = some nj → dbGet dbABdelA j = some nj' →
      nj'.backlinks = nj.backlinks) :=
  C2_delete dbAB "aa" noteA dbABdelA (by decide) (by decide)

/-- Claim C3 (code bug).  Starting from `dbAB` (note `aa` has content
`""` and `backlinks = ["bb"]`, note `bb` has content `"[[aa]]"` and
`links = ["aa"]`), a PUT of `bb` with body `{ content: "" }` completes
with a store in which `aa.backlinks` is still `["bb"]`, `bb.links` is
still `["aa"]` and `bb.content` is still `"[[aa]]"`: the handler's
`if (content)` truthiness guard silently skips both the content write and
`updateLinks` for the empty string, so the spec's required outcome
(`A.backreferences = []`, `B.references = []`) is not produced. -/
theorem C3_put_empty_content :
    putNote dbAB "bb" none (some "") "t9" = some dbABputEmpty ∧
    (dbGet dbABputEmpty "aa").map Note.backlinks = some ["bb"] ∧
    (dbGet dbABputEmpty "bb").map Note.links = some ["aa"] ∧
    (dbGet dbABputEmpty "bb").map Note.content = some "[[aa]]" := by
  decide

/-- Claim C4: neither a content update nor a creation ever adds a note's
own id to its `backlinks` (the `targetId !== noteId` guard), even when
the content references the note itself; such a self-reference does land
in `links`. -/
theorem C4_no_self_backlink (db : Db) (i c title now : String) :
    (∀ note, dbGet db i = some note →
      ∃ note', dbGet (updateLinks i c db) i = some note' ∧
        (i ∈ note'.backlinks → i ∈ note.backlinks) ∧
        (i ∈ parseLinks c → i ∈ note'.links)) ∧
    (dbGet db i = none →
      ∃ note', dbGet (createNote db i title c now) i = some note' ∧
        ¬ i ∈ note'.backlinks ∧ (i ∈ parseLinks c → i ∈ note'.links)) := by
  constructor
  · intro note h
    refine ⟨transformFn i c note i note, ?_, ?_, ?_⟩
    · rw [updateLinks_get db i c i note h, h, Option.map_some']
    · rw [mem_backlinks_transformFn]
      rintro (⟨hmem, _⟩ | ⟨_, hii, _⟩)
      · exact hmem
      · exact absurd rfl hii
    · intro hc
      rw [transformFn_links_self]
      exact hc
  · intro h
    refine ⟨{ newNote i title c now with links := parseLinks c }, ?_, ?_, ?_⟩
    · rw [createNote_get' db i title c now i h, if_pos rfl]
    · exact List.not_mem_nil i
    · intro hc
      exact hc

/-- Witness for C4: updating `bb` in `dbAB` to content `"[[bb]]"`, a
self-reference. -/
theorem C4_no_self_backlink_witness :
    ∃ note', dbGet (updateLinks "bb" "[[bb]]" dbAB) "bb" = some note' ∧
      ("bb" ∈ note'.backlinks → "bb" ∈ noteB.backlinks) ∧
      ("bb" ∈ parseLinks "[[bb]]" → "bb" ∈ note'.links) :=
  (C4_no_self_backlink dbAB "bb" "[[bb]]" "T" "t1").1 noteB (by decide)

/-- Claim C5: creating note A whose content references a nonexistent id X
records X in A's `links` while X stays absent from the store; creating X
afterwards gives X an empty `backlinks` list — the backreference for the
dangling edge is not retroactively established. -/
theorem C5_dangling (db : Db) (A X tA cA tX cX now1 now2 : String)
    (hAX : ¬ A = X) (hA : dbGet db A = none) (hX : dbGet db X = none)
    (hmem : X ∈ parseLinks cA) :
    (∃ nA, dbGet (createNote db A tA cA now1) A = some nA ∧ X ∈ nA.links) ∧
    dbGet (createNote db A tA cA now1) X = none ∧
    (∃ nX, dbGet (createNote (createNote db A tA cA now1) X tX cX now2) X = some nX ∧
      nX.backlinks = []) := by
  have hXA : ¬ X = A := fun h => hAX h.symm
  have hX1 : dbGet (createNote db A tA cA now1) X = none := by
    rw [createNote_get' db A tA cA now1 X hA, if_neg hXA, hX, Option.map_none']
  refine ⟨⟨{ newNote A tA cA now1 with links := parseLinks cA }, ?_, hmem⟩, hX1, ?_⟩
  · rw [createNote_get' db A tA cA now1 A hA, if_pos rfl]
  · refine ⟨{ newNote X tX cX now2 with links := parseLinks cX }, ?_, rfl⟩
    rw [createNote_get' _ X tX cX now2 X hX1, if_pos rfl]

/-- Witness for C5: create `aa` with content `"[[bb]]"` in the empty
store, then create `bb` with content `"zz"`. -/
theorem C5_dangling_witness :
    (∃ nA, dbGet (createNote initialDb "aa" "A" "[[bb]]" "t0") "aa" = some nA ∧
      "bb" ∈ nA.links) ∧
    dbGet (createNote initialDb "aa" "A" "[[bb]]" "t0") "bb" = none ∧
    (∃ nX, dbGet (createNote (createNote initialDb "aa" "A" "[[bb]]" "t0")
        "bb" "B" "zz" "t1") "bb" = some nX ∧ nX.backlinks = []) :=
  C5_dangling initialDb "aa" "bb" "A" "[[bb]]" "B" "zz" "t0" "t1"
    (by decide) rfl rfl (by decide)

/-- Claim C6, counterexample.  The spec's example content
`"[[id1]] text [[id1]] [[id2]]"` extracts to the empty set, not to a
two-element set: the letter `i` of the literal tokens `id1`, `id2` is not
in the regex class `[a-fA-F0-9-]`, so neither marker matches. -/
theorem C6_extract_cex :
    parseLinks "[[id1]] text [[id1]] [[id2]]" = [] := by
  decide

/-- Claim C6 (amended): the extractor returns each matched identifier at
most once — its result list is always duplicate-free — and for marker
tokens that fit the identifier format (hex digits and hyphens) duplicate
markers collapse to a single member, e.g. `"[[a1]] text [[a1]] [[b2]]"`
extracts to exactly the two-element set of `a1` and `b2`. -/
theorem C6_extract_set :
    (∀ c, (parseLinks c).Nodup) ∧
    parseLinks "[[a1]] text [[a1]] [[b2]]" = ["a1", "b2"] :=
  ⟨nodup_parseLinks, by decide⟩

/-- Claim C7: `updateLinks` is idempotent — re-applying the same content
update leaves the whole store (hence every note's `links` and
`backlinks`) exactly as after the first application. -/
theorem C7_idempotent (db : Db) (i c : String) :
    updateLinks i c (updateLinks i c db) = updateLinks i c db := by
  cases h : dbGet db i with
  | none =>
    rw [updateLinks_none db i c h, updateLinks_none db i c h]
  | some note =>
    have h1 : dbGet (updateLinks i c db) i = some (transformFn i c note i note) := by
      rw [updateLinks_get db i c i note h, h, Option.map_some']
    have hded : dedupList (transformFn i c note i note).links = parseLinks c := by
      rw [transformFn_links_self, dedupList_parseLinks]
    have hrem : remList (transformFn i c note i note) c = [] := by
      unfold remList
      rw [hded, List.filter_eq_nil_iff]
      intro a ha
      simp [ha]
    have hadd : addList (transformFn i c note i note) c = [] := by
      unfold addList
      rw [hded, List.filter_eq_nil_iff]
      intro a ha
      simp [ha]
    rw [updateLinks_some _ i c _ h1, hrem, hadd]
    simp only [List.foldl_nil]
    rw [updateLinks_some db i c note h, dbSet_dbSet]

/-- Claim C8: after `updateLinks i c db` on an existing note, that note's
`links` equal exactly `parseLinks c` — the stored set is replaced by what
the latest content extracts to. -/
theorem C8_links_mirror (db : Db) (i c : String) (note : Note)
    (h : dbGet db i = some note) :
    ∃ note', dbGet (updateLinks i c db) i = some note' ∧
      note'.links = parseLinks c := by
  refine ⟨transformFn i c note i note, ?_, transformFn_links_self i c note note⟩
  rw [updateLinks_get db i c i note h, h, Option.map_some']

/-- Witness for C8: update `bb` in `dbAB` to `"[[aa]] [[cc]]"`. -/
theorem C8_links_mirror_witness :
    ∃ note', dbGet (updateLinks "bb" "[[aa]] [[cc]]" dbAB) "bb" = some note' ∧
      note'.links = parseLinks "[[aa]] [[cc]]" :=
  C8_links_mirror dbAB "bb" "[[aa]] [[cc]]" noteB (by decide)

/-- Claim C9 (code bug).  The store `readDB` initializes when no
persisted file exists is `{ notes: {} }` with no `templates` collection,
so the very next template creation — with valid title and content —
aborts with the infrastructure fault (the JS TypeError on
`db.templates[id] = ...`, surfaced as a 500) instead of succeeding. -/
theorem C9_fresh_store_template_fault :
    createTemplate initialDb "id9" "T" "C" =
      Except.error "Internal Server Error" := rfl

/-- Claim C10: when no stored note carries today's daily title, GET
/api/notes/daily inserts a fresh note with that title and empty `links`
and `backlinks`, persists the store, and reports 201; when such a note
exists (the first one found), the store is returned unchanged, nothing is
persisted, and that note is reported with 200. -/
theorem C10_daily_note (db : Db) (today freshId now : String) :
    ((∀ p ∈ db.notes, ¬ p.2.title = "Daily Note: " ++ today) →
      getDailyNote db today freshId now =
        (dbInsert db freshId (dailyNote today freshId now), 201,
          dailyNote today freshId now, true)) ∧
    (∀ p, db.notes.find? (fun q => q.2.title = "Daily Note: " ++ today) = some p →
      getDailyNote db today freshId now = (db, 200, p.2, false)) := by
  constructor
  · intro hnone
    have hfind : db.notes.find? (fun q => q.2.title = "Daily Note: " ++ today) = none := by
      rw [List.find?_eq_none]
      intro p hp
      simpa using hnone p hp
    unfold getDailyNote
    rw [hfind]
  · intro p hfind
    unfold getDailyNote
    rw [hfind]

/-- Witness for C10: `dbAB` holds no daily note for 2026-02-03, so the
daily endpoint creates one. -/
theorem C10_daily_note_witness :
    getDailyNote dbAB "2026-02-03" "cc" "t5" =
      (dbInsert dbAB "cc" (dailyNote "2026-02-03" "cc" "t5"), 201,
        dailyNote "2026-02-03" "cc" "t5", true) :=
  (C10_daily_note dbAB "2026-02-03" "cc" "t5").1 (by decide)

end Ta
